import Mathlib

/-
Verification of the unary RPC dispatch engine of `src/core/base/Router.module.ts`
(class `RouterModule`): the before/after middleware chains, the continuation
runner with its double-`next` guard, the cancellation check, the error-to-status
mapping in the catch block, and the method registry (`handle`, `listMethods`,
`toUnaryHandler`, `asServiceImpl`).

The embedding is shallow for the dispatch control flow (each branch of the
TypeScript function becomes a branch of a Lean function) and deep for the
user-supplied middlewares and controllers: a middleware is a program in a small
language (`MwProg`) that can mutate `ctx.state`, log a trace point, throw, and
invoke its continuation any number of times — exactly the capabilities a JS
middleware `(ctx, next) => Promise<void>` has against this engine.  JS
exceptions do not roll back mutations, so every interpreter returns the final
mutable world together with an optional thrown value.
-/

namespace RouterSpec

/-- JS values stored in `ctx.state` and returned by controllers. -/
inductive Value where
  | vbool : Bool → Value
  | vint : Int → Value
  | vstr : String → Value
  | vobj : List (String × Value) → Value

/-- Property lookup on an association list of object fields. -/
def lookupField : List (String × Value) → String → Option Value
  | [], _ => none
  | (k, v) :: rest, n => if k = n then some v else lookupField rest n

/-- `obj.field` access: `some` when the value is an object with the field. -/
def getField : Value → String → Option Value
  | Value.vobj fs, k => lookupField fs k
  | _, _ => none

/-- `ctx.state`: a mutable string-keyed map (JS object). -/
abbrev StateMap := List (String × Value)

/-- `state[k] = v`: overwrite in place when the key exists, else append. -/
def stateSet (st : StateMap) (k : String) (v : Value) : StateMap :=
  if st.any (fun p => p.1 = k) then st.map (fun p => if p.1 = k then (k, v) else p)
  else st ++ [(k, v)]

/-- The observable per-call world: the context state plus a trace of the
stage labels that actually executed (the instrument for ordering claims). -/
structure World where
  state : StateMap
  trace : List String

/-- The code property of a thrown JS value, as probed by
`Number.isInteger(e?.code)`: absent, an integer, or present but not an
integer number. -/
inductive JsCode where
  | noCode : JsCode
  | intCode : Int → JsCode
  | nonIntCode : JsCode

/-- A thrown JS value, reduced to the three properties the catch block
probes: `e?.code`, `e?.message`, `e?.details`. -/
structure Thrown where
  code : JsCode
  message : Option String
  details : Option Value

/-- The `ServiceError` delivered to the gRPC callback on failure. -/
structure GrpcError where
  code : Int
  message : String
  details : Option Value

/-- `grpc.status.OK`. -/
def GrpcStatus.OK : Int := 0

/-- `grpc.status.CANCELLED`. -/
def GrpcStatus.CANCELLED : Int := 1

/-- `grpc.status.UNKNOWN`. -/
def GrpcStatus.UNKNOWN : Int := 2

/-- The catch block of `toUnaryHandler`:
`code = Number.isInteger(e?.code) && e.code >= 0 ? e.code : GrpcStatus.UNKNOWN`,
`new Error(e?.message ?? 'Internal error')`, `details: e?.details`. -/
def mapError (e : Thrown) : GrpcError :=
  { code :=
      match e.code with
      | JsCode.intCode n => if 0 ≤ n then n else GrpcStatus.UNKNOWN
      | _ => GrpcStatus.UNKNOWN
    message := e.message.getD "Internal error"
    details := e.details }

/-- Deep embedding of a middleware body `(ctx, next) => Promise<void>`:
it can finish, throw, read/write `ctx.state`, log a trace point, and call
`next`; after a call of `next` it observes whether the rest of the chain
threw (`some e`) or completed (`none`) and continues accordingly —
rethrowing is `throwErr e`, catching is anything else. -/
inductive MwProg where
  | done : MwProg
  | throwErr : Thrown → MwProg
  | setSt : String → Value → MwProg → MwProg
  | getSt : String → (Option Value → MwProg) → MwProg
  | tracePt : String → MwProg → MwProg
  | callNext : (Option Thrown → MwProg) → MwProg

/-- Deep embedding of a controller body `(ctx) => Promise<Res>`. -/
inductive CtrlProg where
  | ret : Value → CtrlProg
  | throwErr : Thrown → CtrlProg
  | setSt : String → Value → CtrlProg → CtrlProg
  | getSt : String → (Option Value → CtrlProg) → CtrlProg
  | tracePt : String → CtrlProg → CtrlProg

/-- The state threaded through one `runChain` invocation: the world plus the
chain cursor `idx` (the `let idx = -1` closure variable, invisible to
middlewares — `MwProg` has no instruction touching it). -/
structure ChainSt where
  w : World
  idx : Int

/-- `new Error('next() called multiple times')`: a plain Error, no code. -/
def nextTwiceErr : Thrown :=
  { code := JsCode.noCode, message := some "next() called multiple times", details := none }

/-- Run one middleware body against the chain continuation `nx`.  Mutations
survive a throw, so the result is the final state plus the optional thrown
value. -/
def interpMw (nx : ChainSt → ChainSt × Option Thrown) : MwProg → ChainSt → ChainSt × Option Thrown
  | MwProg.done, s => (s, none)
  | MwProg.throwErr e, s => (s, some e)
  | MwProg.setSt k v p, s =>
      interpMw nx p { s with w := { s.w with state := stateSet s.w.state k v } }
  | MwProg.getSt k f, s => interpMw nx (f (lookupField s.w.state k)) s
  | MwProg.tracePt t p, s =>
      interpMw nx p { s with w := { s.w with trace := s.w.trace ++ [t] } }
  | MwProg.callNext f, s =>
      match nx s with
      | (s', r) => interpMw nx (f r) s'

/-- The `runner(i)` closure of `runChain`: guard `if (i <= idx) throw`,
then `idx = i`, then invoke `chain[i]` (if any) with continuation
`() => runner(i + 1)`.  `rest` is the suffix `chain.drop i` of the immutable
chain, so `chain[i]` is its head. -/
def runner : List MwProg → Nat → ChainSt → ChainSt × Option Thrown
  | rest, i, s =>
    if (i : Int) ≤ s.idx then (s, some nextTwiceErr)
    else
      match rest with
      | [] => ({ s with idx := (i : Int) }, none)
      | p :: tail => interpMw (fun t => runner tail (i + 1) t) p { s with idx := (i : Int) }

/-- `runChain(chain)`: fresh cursor `idx = -1`, then `await runner(0)`. -/
def runChain (chain : List MwProg) (w : World) : World × Option Thrown :=
  match runner chain 0 { w := w, idx := -1 } with
  | (s, r) => (s.w, r)

/-- `if (middlewares.length) await runChain(middlewares)`. -/
def runPhase (chain : List MwProg) (w : World) : World × Option Thrown :=
  if chain.length ≠ 0 then runChain chain w else (w, none)

/-- Run a controller body: final world plus its returned value or thrown value. -/
def runCtrl : CtrlProg → World → World × Except Thrown Value
  | CtrlProg.ret v, w => (w, Except.ok v)
  | CtrlProg.throwErr e, w => (w, Except.error e)
  | CtrlProg.setSt k v p, w => runCtrl p { w with state := stateSet w.state k v }
  | CtrlProg.getSt k f, w => runCtrl (f (lookupField w.state k)) w
  | CtrlProg.tracePt t p, w => runCtrl p { w with trace := w.trace ++ [t] }

/-- One delivered outcome: `callback(null, result)` or `callback(err, null)`. -/
inductive CallOutcome where
  | success : Value → CallOutcome
  | failure : GrpcError → CallOutcome

/-- The Error of the cancellation branch:
`Object.assign(new Error('Cancelled'), { code: GrpcStatus.CANCELLED })`. -/
def cancelledErr : GrpcError :=
  { code := GrpcStatus.CANCELLED, message := "Cancelled", details := none }

/-- The fresh per-call context: `state: {}`, nothing executed yet. -/
def initWorld : World := { state := [], trace := [] }

/-- The async function returned by `toUnaryHandler`, for one call: the
cancellation check, the before-chain, the controller, the
`ctx.state.__response = result` store, the after-chain, and the catch block —
returning the final world and the list of callback invocations in order. -/
def dispatch (cancelled : Bool) (bef : List MwProg) (ctrl : CtrlProg) (aft : List MwProg) :
    World × List CallOutcome :=
  if cancelled then (initWorld, [CallOutcome.failure cancelledErr])
  else
    match runPhase bef initWorld with
    | (w1, some e) => (w1, [CallOutcome.failure (mapError e)])
    | (w1, none) =>
      match runCtrl ctrl w1 with
      | (w2, Except.error e) => (w2, [CallOutcome.failure (mapError e)])
      | (w2, Except.ok result) =>
        match runPhase aft { w2 with state := stateSet w2.state "__response" result } with
        | (w4, some e) => (w4, [CallOutcome.failure (mapError e)])
        | (w4, none) => (w4, [CallOutcome.success result])

/-- `routes.set(name, controller)`: JS `Map.set` — overwrite keeps the
original insertion position, a new key is appended. -/
def routesSet (routes : List (String × CtrlProg)) (name : String) (c : CtrlProg) :
    List (String × CtrlProg) :=
  if routes.any (fun p => p.1 = name) then
    routes.map (fun p => if p.1 = name then (name, c) else p)
  else routes ++ [(name, c)]

/-- `routes.get(name)`. -/
def routesGet : List (String × CtrlProg) → String → Option CtrlProg
  | [], _ => none
  | (k, v) :: rest, n => if k = n then some v else routesGet rest n

/-- `listMethods()`: `Array.from(this.routes.keys())`. -/
def listMethods (routes : List (String × CtrlProg)) : List String :=
  routes.map Prod.fst

/-- The registration-relevant state of a `RouterModule` instance. -/
structure RouterSt where
  beforeMiddlewares : List MwProg
  afterMiddlewares : List MwProg
  routes : List (String × CtrlProg)

/-- `handle(methodName, controller)`. -/
def handle (r : RouterSt) (methodName : String) (c : CtrlProg) : RouterSt :=
  { r with routes := routesSet r.routes methodName c }

/-- A sequence of `handle` registrations on a fresh router's route map. -/
def applyRegs (regs : List (String × CtrlProg)) : List (String × CtrlProg) :=
  regs.foldl (fun rs p => routesSet rs p.1 p.2) []

/-- `toUnaryHandler(methodName)`: throws at assembly time when no controller
is registered (`Except.error`), otherwise returns the per-call entry point. -/
def toUnaryHandler (r : RouterSt) (methodName : String) :
    Except String (Bool → World × List CallOutcome) :=
  match routesGet r.routes methodName with
  | none => Except.error ("No controller registered for " ++ methodName)
  | some c =>
      Except.ok (fun cancelled => dispatch cancelled r.beforeMiddlewares c r.afterMiddlewares)

/-- `asServiceImpl()`: adapt every registered name; a `toUnaryHandler` throw
aborts the whole construction. -/
def asServiceImpl (r : RouterSt) :
    Except String (List (String × (Bool → World × List CallOutcome))) :=
  (listMethods r.routes).foldlM
    (fun impl n => (toUnaryHandler r n).map (fun h => impl ++ [(n, h)])) []

/-- A middleware that rethrows what `next` threw and otherwise finishes:
the behaviour of a body that simply does `await next()` without a catch. -/
def passThrough : Option Thrown → MwProg
  | none => MwProg.done
  | some e => MwProg.throwErr e

/-- A well-behaved middleware: log the label, `await next()` once. -/
def mwTrace (t : String) : MwProg :=
  MwProg.tracePt t (MwProg.callNext passThrough)

/-- A well-behaved controller: log the label, return the value. -/
def ctrlTrace (t : String) (v : Value) : CtrlProg :=
  CtrlProg.tracePt t (CtrlProg.ret v)

/-- A sample response value. -/
def v0 : Value := Value.vstr "ok"

/-- A before-middleware that logs "b1" and returns without invoking `next`. -/
def b1Halt : MwProg := MwProg.tracePt "b1" MwProg.done

/-- A middleware that logs "b1" and awaits `next()` twice (a programming
defect); like any plain `await`, it rethrows what either call throws. -/
def mwDoubleNext : MwProg :=
  MwProg.tracePt "b1" (MwProg.callNext (fun r =>
    match r with
    | none => MwProg.callNext passThrough
    | some e => MwProg.throwErr e))

/-- Spec scenario 2's before-middleware: `state.seen = true`, then `next()`. -/
def beforeSeen : MwProg :=
  MwProg.setSt "seen" (Value.vbool true) (MwProg.callNext passThrough)

/-- Spec scenario 2's handler: read `state.seen`, return `{seen: <it>}`. -/
def handlerSeen : CtrlProg :=
  CtrlProg.getSt "seen" (fun v =>
    match v with
    | some value => CtrlProg.ret (Value.vobj [("seen", value)])
    | none => CtrlProg.ret (Value.vobj [("seen", Value.vbool false)]))

/-- Spec scenario 2's after-middleware: assert `state.<key>.seen === true`.
Reading `.seen` off an absent key is a JS TypeError (a thrown non-coded
failure); a present object failing the comparison is an assertion throw. -/
def assertSeen (key : String) : MwProg :=
  MwProg.getSt key (fun v =>
    match v with
    | some obj =>
        match getField obj "seen" with
        | some (Value.vbool true) => MwProg.callNext passThrough
        | _ => MwProg.throwErr
            { code := JsCode.noCode, message := some "Assertion failed", details := none }
    | none => MwProg.throwErr
        { code := JsCode.noCode, message := some "Cannot read properties of undefined", details := none })

/-- Middleware programs that never invoke their continuation, on any branch. -/
inductive NoNext : MwProg → Prop where
  | done : NoNext MwProg.done
  | throwErr (e : Thrown) : NoNext (MwProg.throwErr e)
  | setSt (k : String) (v : Value) (p : MwProg) : NoNext p → NoNext (MwProg.setSt k v p)
  | getSt (k : String) (f : Option Value → MwProg) : (∀ v, NoNext (f v)) → NoNext (MwProg.getSt k f)
  | tracePt (t : String) (p : MwProg) : NoNext p → NoNext (MwProg.tracePt t p)

/-- The distinct elements of a list, keeping the first occurrence of each in
order: the key sequence of a JS `Map` built by repeated `set`. -/
def firstOccurrences : List String → List String
  | [] => []
  | n :: rest => n :: firstOccurrences (rest.filter (fun m => m ≠ n))
termination_by l => l.length
decreasing_by
  simp only [List.length_cons]
  exact Nat.lt_succ_of_le (List.length_filter_le _ _)

/-- Unfolding of `dispatch` for a non-cancelled call. -/
theorem dispatch_false (bef : List MwProg) (c : CtrlProg) (aft : List MwProg) :
    dispatch false bef c aft =
      (match runPhase bef initWorld with
       | (w1, some e) => (w1, [CallOutcome.failure (mapError e)])
       | (w1, none) =>
         match runCtrl c w1 with
         | (w2, Except.error e) => (w2, [CallOutcome.failure (mapError e)])
         | (w2, Except.ok result) =>
           match runPhase aft { w2 with state := stateSet w2.state "__response" result } with
           | (w4, some e) => (w4, [CallOutcome.failure (mapError e)])
           | (w4, none) => (w4, [CallOutcome.success result])) := rfl

/-- A middleware that never calls `next` cannot observe its continuation. -/
theorem interpMw_congr (p : MwProg) (hp : NoNext p)
    (nx nx' : ChainSt → ChainSt × Option Thrown) (s : ChainSt) :
    interpMw nx p s = interpMw nx' p s := by
  induction hp generalizing s with
  | done => rfl
  | throwErr e => rfl
  | setSt k v p hnp ih => simp only [interpMw]; exact ih _
  | getSt k f hf ih => simp only [interpMw]; exact ih _ _
  | tracePt t p hnp ih => simp only [interpMw]; exact ih _

/-- When the chain's head never calls `next`, the tail is irrelevant. -/
theorem runner_congr_tail (p : MwProg) (hp : NoNext p) (tail tail' : List MwProg)
    (i : Nat) (s : ChainSt) :
    runner (p :: tail) i s = runner (p :: tail') i s := by
  by_cases h : (i : Int) ≤ s.idx
  · simp only [runner, if_pos h]
  · simp only [runner, if_neg h]
    exact interpMw_congr p hp _ _ _

/-- On a non-empty chain the length guard of `runPhase` is a no-op. -/
theorem runPhase_cons (p : MwProg) (t : List MwProg) (w : World) :
    runPhase (p :: t) w = runChain (p :: t) w := by
  simp [runPhase]

/-- Dispatch is independent of everything behind a before-middleware that
never calls `next`. -/
theorem dispatch_congr_before_tail (p : MwProg) (hp : NoNext p) (tail tail' : List MwProg)
    (c : CtrlProg) (aft : List MwProg) :
    dispatch false (p :: tail) c aft = dispatch false (p :: tail') c aft := by
  have h : runPhase (p :: tail) initWorld = runPhase (p :: tail') initWorld := by
    rw [runPhase_cons, runPhase_cons]
    unfold runChain
    rw [runner_congr_tail p hp tail tail']
  rw [dispatch_false, dispatch_false, h]

/-- `Map.get` after `Map.set` of the same key, overwrite case. -/
theorem routesGet_overwrite (n : String) (c : CtrlProg) :
    ∀ rs : List (String × CtrlProg), rs.any (fun p => p.1 = n) = true →
      routesGet (rs.map (fun p => if p.1 = n then (n, c) else p)) n = some c := by
  intro rs
  induction rs with
  | nil => intro h; simp at h
  | cons hd t ih =>
    obtain ⟨k, v⟩ := hd
    intro h
    by_cases hk : k = n
    · subst hk
      simp only [List.map_cons]
      simp [routesGet]
    · have ht : t.any (fun p => p.1 = n) = true := by
        simp only [List.any_cons, Bool.or_eq_true, decide_eq_true_eq] at h
        rcases h with h | h
        · exact absurd h hk
        · exact h
      simp only [List.map_cons]
      rw [show (if ((k, v) : String × CtrlProg).1 = n then (n, c) else (k, v)) = (k, v) from if_neg hk]
      simp only [routesGet]
      rw [if_neg hk]
      exact ih ht

/-- `Map.get` after `Map.set` of the same key, fresh-key case. -/
theorem routesGet_append_new (n : String) (c : CtrlProg) :
    ∀ rs : List (String × CtrlProg), rs.any (fun p => p.1 = n) = false →
      routesGet (rs ++ [(n, c)]) n = some c := by
  intro rs
  induction rs with
  | nil => intro _; simp [routesGet]
  | cons hd t ih =>
    obtain ⟨k, v⟩ := hd
    intro h
    simp only [List.any_cons, Bool.or_eq_false_iff, decide_eq_false_iff_not] at h
    simp only [List.cons_append, routesGet]
    rw [if_neg h.1]
    exact ih (by simp [h.2])

/-- `routes.get(name)` after `routes.set(name, c)` yields `c`. -/
theorem routesGet_routesSet (rs : List (String × CtrlProg)) (n : String) (c : CtrlProg) :
    routesGet (routesSet rs n c) n = some c := by
  unfold routesSet
  cases h : rs.any (fun p => p.1 = n) with
  | true => rw [if_pos rfl]; exact routesGet_overwrite n c rs h
  | false =>
    rw [if_neg (by simp)]
    exact routesGet_append_new n c rs h

/-- In-place overwrite does not change the key sequence. -/
theorem map_fst_overwrite (n : String) (c : CtrlProg) :
    ∀ t : List (String × CtrlProg),
      (t.map (fun p => if p.1 = n then (n, c) else p)).map Prod.fst = t.map Prod.fst := by
  intro t
  induction t with
  | nil => rfl
  | cons hd t ih =>
    simp only [List.map_cons, ih]
    by_cases h : hd.1 = n <;> simp [h]

/-- `Map.set` keeps the key sequence when the key is present and appends
the key when it is new. -/
theorem listMethods_routesSet (rs : List (String × CtrlProg)) (n : String) (c : CtrlProg) :
    listMethods (routesSet rs n c) =
      if n ∈ listMethods rs then listMethods rs else listMethods rs ++ [n] := by
  unfold routesSet listMethods
  cases h : rs.any (fun p => p.1 = n) with
  | true =>
    have hm : n ∈ rs.map Prod.fst := by
      simp only [List.any_eq_true, decide_eq_true_eq] at h
      rcases h with ⟨p, hp, hpn⟩
      exact List.mem_map.mpr ⟨p, hp, hpn⟩
    rw [if_pos rfl, if_pos hm]
    exact map_fst_overwrite n c rs
  | false =>
    have hm : n ∉ rs.map Prod.fst := by
      simp only [List.any_eq_false, decide_eq_true_eq] at h
      intro hmem
      rcases List.mem_map.mp hmem with ⟨p, hp, hpn⟩
      exact h p hp hpn
    rw [if_neg (by simp), if_neg hm]
    simp

/-- Key sequence of a registration fold, generalized over the accumulator. -/
theorem names_applyRegs_aux :
    ∀ (regs : List (String × CtrlProg)) (acc : List (String × CtrlProg)),
      listMethods (regs.foldl (fun rs p => routesSet rs p.1 p.2) acc)
        = listMethods acc
          ++ firstOccurrences ((regs.map Prod.fst).filter (fun m => m ∉ listMethods acc)) := by
  intro regs
  induction regs with
  | nil => intro acc; simp [firstOccurrences]
  | cons hd regs ih =>
    intro acc
    obtain ⟨n0, c0⟩ := hd
    simp only [List.foldl_cons, List.map_cons, List.filter_cons]
    rw [ih, listMethods_routesSet]
    by_cases hn : n0 ∈ listMethods acc
    · rw [if_pos hn]
      have hd0 : decide (n0 ∉ listMethods acc) = false := by simp [hn]
      simp [hd0]
    · rw [if_neg hn]
      have hd1 : decide (n0 ∉ listMethods acc) = true := by simp [hn]
      rw [hd1]
      have hfilt : List.filter (fun m => decide (m ∉ listMethods acc ++ [n0])) (regs.map Prod.fst)
          = List.filter (fun m => decide (m ≠ n0) && decide (m ∉ listMethods acc)) (regs.map Prod.fst) := by
        apply List.filter_congr
        intro m _
        by_cases h1 : m = n0 <;> by_cases h2 : m ∈ listMethods acc <;> simp [h1, h2]
      calc listMethods acc ++ [n0]
            ++ firstOccurrences
                (List.filter (fun m => decide (m ∉ listMethods acc ++ [n0])) (regs.map Prod.fst))
          = listMethods acc
            ++ ([n0] ++ firstOccurrences
                (List.filter (fun m => decide (m ≠ n0) && decide (m ∉ listMethods acc))
                  (regs.map Prod.fst))) := by
            rw [hfilt, List.append_assoc]
        _ = listMethods acc
            ++ firstOccurrences
                (n0 :: List.filter (fun m => decide (m ∉ listMethods acc)) (regs.map Prod.fst)) := by
            congr 1
            rw [List.singleton_append, firstOccurrences]
            congr 1
            rw [List.filter_filter]
        _ = _ := rfl

/-- `listMethods` after a registration sequence: distinct names, in order of
first registration. -/
theorem names_applyRegs (regs : List (String × CtrlProg)) :
    listMethods (applyRegs regs) = firstOccurrences (regs.map Prod.fst) := by
  have h := names_applyRegs_aux regs []
  simp only [applyRegs, listMethods, List.map_nil, List.nil_append] at h ⊢
  rw [h]
  congr 1
  apply List.filter_eq_self.mpr
  intro m _
  simp

/-- Claim C1 is false on the code at a concrete input: with before-chain
`[b1, b2]` where `b1 = b1Halt` returns without invoking its continuation, the
handler `h` and the after-middlewares `a1`, `a2` nevertheless execute (they
appear in the trace) and the call succeeds — contradicting "neither the second
before-middleware b2, nor the handler h, nor the after-middlewares a1 and a2
run".  Only `b2` is skipped. -/
theorem before_halt_counterexample :
    (dispatch false [b1Halt, mwTrace "b2"] (ctrlTrace "h" v0) [mwTrace "a1", mwTrace "a2"]).1.trace
      = ["b1", "h", "a1", "a2"]
    ∧ "h" ∈ (dispatch false [b1Halt, mwTrace "b2"] (ctrlTrace "h" v0) [mwTrace "a1", mwTrace "a2"]).1.trace
    ∧ "a1" ∈ (dispatch false [b1Halt, mwTrace "b2"] (ctrlTrace "h" v0) [mwTrace "a1", mwTrace "a2"]).1.trace
    ∧ "a2" ∈ (dispatch false [b1Halt, mwTrace "b2"] (ctrlTrace "h" v0) [mwTrace "a1", mwTrace "a2"]).1.trace
    ∧ "b2" ∉ (dispatch false [b1Halt, mwTrace "b2"] (ctrlTrace "h" v0) [mwTrace "a1", mwTrace "a2"]).1.trace
    ∧ (dispatch false [b1Halt, mwTrace "b2"] (ctrlTrace "h" v0) [mwTrace "a1", mwTrace "a2"]).2
        = [CallOutcome.success v0] := by
  refine ⟨rfl, ?_, ?_, ?_, ?_, rfl⟩ <;> decide

/-- Claim C1 (amended): when the first before-middleware returns without ever
invoking its continuation, the rest of the before-chain never executes — the
whole dispatch is independent of what stands behind that middleware in the
before-chain — but the handler and the after-middlewares still execute: the
halt stops only the remainder of the before-chain, it does not short-circuit
the call before the handler. -/
theorem before_halt_amended (p : MwProg) (hp : NoNext p) (tail tail' : List MwProg)
    (c : CtrlProg) (aft : List MwProg) :
    dispatch false (p :: tail) c aft = dispatch false (p :: tail') c aft
    ∧ (dispatch false [b1Halt, mwTrace "b2"] (ctrlTrace "h" v0) [mwTrace "a1", mwTrace "a2"]).1.trace
        = ["b1", "h", "a1", "a2"] :=
  ⟨dispatch_congr_before_tail p hp tail tail' c aft, rfl⟩

/-- Claim C1 witness: `b1Halt` never calls `next`, and dispatch with it in
front is insensitive to the rest of the before-chain. -/
theorem before_halt_amended_witness :
    NoNext b1Halt
    ∧ dispatch false [b1Halt, mwTrace "b2"] (ctrlTrace "h" v0) [mwTrace "a1", mwTrace "a2"]
        = dispatch false [b1Halt] (ctrlTrace "h" v0) [mwTrace "a1", mwTrace "a2"] :=
  ⟨NoNext.tracePt "b1" MwProg.done NoNext.done,
   (before_halt_amended b1Halt (NoNext.tracePt "b1" MwProg.done NoNext.done)
      [mwTrace "b2"] [] (ctrlTrace "h" v0) [mwTrace "a1", mwTrace "a2"]).1⟩

/-- Claim C2 is false on the code: the handler's result is stored under the
reserved key `__response`, not `__result`; the after-middleware asserting
`state.__result.seen === true` reads `undefined`, throws, and the concrete
scenario's outcome is an UNKNOWN-coded error, not success `{seen: true}`. -/
theorem response_key_counterexample :
    (dispatch false [beforeSeen] handlerSeen [assertSeen "__result"]).2
      = [CallOutcome.failure
          { code := GrpcStatus.UNKNOWN, message := "Cannot read properties of undefined", details := none }]
    ∧ (dispatch false [beforeSeen] handlerSeen [assertSeen "__result"]).2
        ≠ [CallOutcome.success (Value.vobj [("seen", Value.vbool true)])] := by
  refine ⟨rfl, ?_⟩
  intro hcontra
  exact absurd
    (show [CallOutcome.failure
            { code := GrpcStatus.UNKNOWN, message := "Cannot read properties of undefined", details := none }]
        = [CallOutcome.success (Value.vobj [("seen", Value.vbool true)])] from hcontra)
    (by simp)

/-- Claim C2 (amended): in the scenario where a before-middleware sets
`state.seen = true`, the handler reads `state.seen` and returns `{seen: true}`,
and an after-middleware asserts `state.__response.seen === true`, the call
succeeds with payload `{seen: true}`: the handler's result is visible to the
after-chain in the context state under the reserved key `__response`. -/
theorem response_key_amended :
    (dispatch false [beforeSeen] handlerSeen [assertSeen "__response"]).2
      = [CallOutcome.success (Value.vobj [("seen", Value.vbool true)])]
    ∧ lookupField (dispatch false [beforeSeen] handlerSeen [assertSeen "__response"]).1.state "__response"
        = some (Value.vobj [("seen", Value.vbool true)]) :=
  ⟨rfl, rfl⟩

/-- Claim C3: whichever stage throws (before-middleware, handler, or
after-middleware), a failure carrying a non-negative integer code `n` is
delivered with exactly code `n`, while a negative integer code, a missing
code, or a non-integer code is delivered with the UNKNOWN sentinel (2). -/
theorem error_code_passthrough (n : Nat) (m : Option String) (d : Option Value) :
    (dispatch false [mwTrace "b1"]
        (CtrlProg.throwErr { code := JsCode.intCode n, message := m, details := d }) [mwTrace "a1"]).2
      = [CallOutcome.failure { code := n, message := m.getD "Internal error", details := d }]
    ∧ (dispatch false [MwProg.throwErr { code := JsCode.intCode n, message := m, details := d }, mwTrace "b2"]
        (ctrlTrace "h" v0) [mwTrace "a1"]).2
      = [CallOutcome.failure { code := n, message := m.getD "Internal error", details := d }]
    ∧ (dispatch false [mwTrace "b1"] (ctrlTrace "h" v0)
        [MwProg.throwErr { code := JsCode.intCode n, message := m, details := d }]).2
      = [CallOutcome.failure { code := n, message := m.getD "Internal error", details := d }]
    ∧ (dispatch false [mwTrace "b1"]
        (CtrlProg.throwErr { code := JsCode.intCode (-((n : Int) + 1)), message := m, details := d })
        [mwTrace "a1"]).2
      = [CallOutcome.failure { code := GrpcStatus.UNKNOWN, message := m.getD "Internal error", details := d }]
    ∧ (dispatch false [mwTrace "b1"]
        (CtrlProg.throwErr { code := JsCode.noCode, message := m, details := d }) [mwTrace "a1"]).2
      = [CallOutcome.failure { code := GrpcStatus.UNKNOWN, message := m.getD "Internal error", details := d }]
    ∧ (dispatch false [mwTrace "b1"]
        (CtrlProg.throwErr { code := JsCode.nonIntCode, message := m, details := d }) [mwTrace "a1"]).2
      = [CallOutcome.failure { code := GrpcStatus.UNKNOWN, message := m.getD "Internal error", details := d }] := by
  refine ⟨?_, ?_, ?_, ?_, ?_, ?_⟩
  all_goals simp [dispatch, runPhase, runChain, runner, interpMw, mwTrace, ctrlTrace, passThrough,
    runCtrl, mapError, stateSet]
  omega

/-- Claim C4: a call whose cancellation flag is set at dispatch entry gets a
direct error outcome with the CANCELLED code (1), and no before-middleware,
handler, or after-middleware executes: the final world is untouched. -/
theorem cancellation_precedence (bef : List MwProg) (c : CtrlProg) (aft : List MwProg) :
    dispatch true bef c aft = (initWorld, [CallOutcome.failure cancelledErr])
    ∧ (dispatch true bef c aft).1.trace = []
    ∧ (dispatch true bef c aft).1.state = []
    ∧ cancelledErr.code = GrpcStatus.CANCELLED :=
  ⟨rfl, rfl, rfl, rfl⟩

/-- Claim C5: a middleware invoking its continuation a second time trips the
runner's cursor guard, which throws the "next() called multiple times"
failure; the call's outcome is an error with the UNKNOWN code (2), and the
downstream stage ran exactly once (the trace is `["b1", "b2"]`). -/
theorem double_next_guard :
    (dispatch false [mwDoubleNext, mwTrace "b2"] (ctrlTrace "h" v0) [mwTrace "a1"]).2
      = [CallOutcome.failure
          { code := GrpcStatus.UNKNOWN, message := "next() called multiple times", details := none }]
    ∧ (dispatch false [mwDoubleNext, mwTrace "b2"] (ctrlTrace "h" v0) [mwTrace "a1"]).1.trace
        = ["b1", "b2"]
    ∧ ((dispatch false [mwDoubleNext, mwTrace "b2"] (ctrlTrace "h" v0) [mwTrace "a1"]).1.trace).count "b2" = 1
    ∧ mapError nextTwiceErr
        = { code := GrpcStatus.UNKNOWN, message := "next() called multiple times", details := none } :=
  ⟨rfl, rfl, rfl, rfl⟩

/-- Claim C6: every invocation of the assembled unary entry point delivers
exactly one terminal outcome through the transport callback — never zero and
never more than one — whatever the middlewares and handler do. -/
theorem single_response (cancelled : Bool) (bef : List MwProg) (c : CtrlProg) (aft : List MwProg) :
    ((dispatch cancelled bef c aft).2).length = 1 := by
  cases cancelled with
  | true => rfl
  | false =>
    rw [dispatch_false]
    rcases h1 : runPhase bef initWorld with ⟨w1, r1⟩
    cases r1 with
    | some e => rfl
    | none =>
      rcases h2 : runCtrl c w1 with ⟨w2, r2⟩
      simp only [h2]
      cases r2 with
      | error e => rfl
      | ok result =>
        rcases h3 : runPhase aft { w2 with state := stateSet w2.state "__response" result } with ⟨w4, r4⟩
        simp only [h3]
        cases r4 with
        | some e => rfl
        | none => rfl

/-- Claim C7: for a method name with no registered controller,
`toUnaryHandler` fails at assembly time and produces no entry point at all,
so no call to that method can ever yield a call-time error outcome. -/
theorem missing_controller_fatal (r : RouterSt) (name : String)
    (h : routesGet r.routes name = none) :
    toUnaryHandler r name = Except.error ("No controller registered for " ++ name)
    ∧ ∀ ep, toUnaryHandler r name ≠ Except.ok ep := by
  unfold toUnaryHandler
  rw [h]
  exact ⟨rfl, fun ep hc => Except.noConfusion hc⟩

/-- Claim C7 witness: an empty router has no controller for "Check" and its
adapter construction fails. -/
theorem missing_controller_fatal_witness :
    routesGet (RouterSt.mk [] [] []).routes "Check" = none
    ∧ toUnaryHandler (RouterSt.mk [] [] []) "Check"
        = Except.error ("No controller registered for " ++ "Check") :=
  ⟨rfl, (missing_controller_fatal (RouterSt.mk [] [] []) "Check" rfl).1⟩

/-- Claim C8: with before-chain `[b1, b2]`, handler `h`, after-chain
`[a1, a2]`, every middleware calling `next` exactly once and no failures, the
observed execution order is exactly `b1, b2, h, a1, a2` and the call succeeds
with the handler's result. -/
theorem execution_order (v : Value) :
    (dispatch false [mwTrace "b1", mwTrace "b2"] (ctrlTrace "h" v) [mwTrace "a1", mwTrace "a2"]).1.trace
      = ["b1", "b2", "h", "a1", "a2"]
    ∧ (dispatch false [mwTrace "b1", mwTrace "b2"] (ctrlTrace "h" v) [mwTrace "a1", mwTrace "a2"]).2
        = [CallOutcome.success v] :=
  ⟨rfl, rfl⟩

/-- Claim C9: a duplicate registration silently replaces the previous
controller and dispatch then uses the most recent one, while `listMethods`
returns the distinct registered names in order of first registration. -/
theorem registry_semantics (rs : List (String × CtrlProg)) (n : String) (c c' : CtrlProg)
    (bef aft : List MwProg) (regs : List (String × CtrlProg)) :
    routesGet (routesSet rs n c) n = some c
    ∧ routesGet (routesSet (routesSet rs n c) n c') n = some c'
    ∧ toUnaryHandler { beforeMiddlewares := bef, afterMiddlewares := aft, routes := routesSet rs n c } n
        = Except.ok (fun cancelled => dispatch cancelled bef c aft)
    ∧ listMethods (applyRegs regs) = firstOccurrences (regs.map Prod.fst) := by
  refine ⟨routesGet_routesSet rs n c, routesGet_routesSet _ n c', ?_, names_applyRegs regs⟩
  unfold toUnaryHandler
  rw [routesGet_routesSet]

/-- Claim C10: a thrown value without a message property is delivered with
the fixed message "Internal error", and the delivered error's details field
is always the thrown value's details property (absent when absent). -/
theorem unknown_message_details_mapping (code : JsCode) (m : Option String) (d : Option Value) :
    (dispatch false [] (CtrlProg.throwErr { code := code, message := none, details := d }) []).2
      = [CallOutcome.failure
          { code := (mapError { code := code, message := none, details := d }).code,
            message := "Internal error", details := d }]
    ∧ (mapError { code := code, message := m, details := d }).details = d
    ∧ (mapError { code := code, message := none, details := d }).message = "Internal error" :=
  ⟨rfl, rfl, rfl⟩

end RouterSpec
